import Mathlib

/-!
Verification of the KAST Bank admin backend (`main.py`, `models.py`).

Shallow embedding conventions:
* Currency amounts are rationals (`ℚ`); Python's `round(x, 2)` becomes `round2`
  (round to the nearest multiple of 1/100).
* Timestamps are natural numbers counting seconds; ISO-8601 `created_at`
  strings compare lexicographically exactly as the underlying instants, so the
  embedding stores the instant itself.  `datetime.replace(second=0,
  microsecond=0)` becomes `minuteFloor`.
* `random.uniform(a, b)` is CPython's `a + (b-a)*random()`; the stream of
  `random()` results is an oracle `rng : ℕ → ℚ` (consumed at successive
  indices) whose values lie in `[0, 1]` (`URng`).  `random.randint(0, n)` is an
  oracle `irng : ℕ → ℕ → ℕ` with `irng k n ≤ n` (`IRng`).  The
  `secrets`-based counterparty token and the display date string never
  influence control flow or any claim; they are oracle strings `cps`, `dstr`.
* The unbounded splitting loop (`while remaining > min_tx_amount`) need not
  terminate for adversarial oracles, so it takes fuel; exhausted fuel models a
  diverging run and is reported as `GenErr.nonTermination`.
-/

namespace KastBank

/-- Row of the `Account` table (`models.py`). -/
structure Account where
  id : Option ℕ
  holder_name : String
  account_number : String
  routing_number : String
  holder_address : String
  bank_name : String
  bank_address : String
  country : String
  balance : ℚ
  currency : String
  first_name : String
  last_name : String
  date_of_birth : String
  email : String
  phone_number : String
  address : String
deriving DecidableEq

/-- Row of the `Transaction` table (`models.py`); `created_at` is the instant in
seconds (the code stores its ISO string, whose lexicographic order agrees). -/
structure Transaction where
  id : Option ℕ
  tx_type : String
  amount : ℚ
  currency : String
  counterparty : String
  date : String
  description : String
  created_at : ℕ
deriving DecidableEq

/-- Patch schema `AccountUpdate` (`models.py`): every field optional; `none`
models a field absent from the request body (pydantic `exclude_unset`). -/
structure AccountUpdate where
  holder_name : Option String
  account_number : Option String
  routing_number : Option String
  holder_address : Option String
  bank_name : Option String
  bank_address : Option String
  country : Option String
  balance : Option ℚ
  currency : Option String
  first_name : Option String
  last_name : Option String
  date_of_birth : Option String
  email : Option String
  phone_number : Option String
  address : Option String
deriving DecidableEq

/-- Request schema `TransactionCreate` (`models.py`). -/
structure TransactionCreate where
  tx_type : String
  amount : ℚ
  currency : String
  counterparty : String
  date : String
  description : String
deriving DecidableEq

/-- Patch schema `TransactionUpdate` (`models.py`). -/
structure TransactionUpdate where
  tx_type : Option String
  amount : Option ℚ
  currency : Option String
  counterparty : Option String
  date : Option String
  description : Option String
deriving DecidableEq

/-- Python `round(x, 2)`: round to the nearest multiple of 1/100. -/
def round2 (x : ℚ) : ℚ := (round (100 * x) : ℤ) / 100

/-- CPython `random.uniform lo hi` = `lo + (hi - lo) * random()`. -/
def uniform (lo hi r : ℚ) : ℚ := lo + (hi - lo) * r

/-- Truncation `datetime.replace(second=0, microsecond=0)`: floor to a whole minute. -/
def minuteFloor (t : ℕ) : ℕ := t / 60 * 60

/-- The `random()` oracle produces unit-interval values. -/
def URng (rng : ℕ → ℚ) : Prop := ∀ k, 0 ≤ rng k ∧ rng k ≤ 1

/-- The `randint(0, n)` oracle stays within its bound. -/
def IRng (irng : ℕ → ℕ → ℕ) : Prop := ∀ k n, irng k n ≤ n

/-- Accounting step of `generate_transactions` (`main.py` lines 253-261):
only "received" and "sent" rows contribute, "sent" amounts being stored
negative already. -/
def actualBalance (txs : List Transaction) : ℚ :=
  txs.foldl
    (fun acc tx =>
      if tx.tx_type = "received" then acc + tx.amount
      else if tx.tx_type = "sent" then acc + tx.amount
      else acc) 0

/-- The `min_sent_count` draws of small outflows in the `difference > 0`
branch (`main.py` lines 310-316).  Returns the list of amounts, their running
total (`sent_total`) and the next oracle index. -/
def sentDraws (rng : ℕ → ℚ) (ma total : ℚ) : ℕ → ℕ → List ℚ × ℚ × ℕ
  | 0, c => ([], 0, c)
  | n + 1, c =>
    let amount := round2 (uniform (1/100) (min ma (total * (3/10))) (rng c))
    let rest := sentDraws rng ma total n (c + 1)
    (amount :: rest.1, amount + rest.2.1, rest.2.2)

/-- One iteration's `max_this_tx` (`main.py` lines 326-330): with the budget
`b = target_count - len(amounts)` standing for the rows still needed minus
one, `max 1 (b+1)` is the code's `remaining_txs_needed`. -/
def fillMaxThis (ma remaining : ℚ) (b : ℕ) : ℚ :=
  if min ma (remaining - 1/100 * (((max 1 (b + 1) : ℕ) : ℚ) - 1)) < 1/100
  then min ma remaining
  else min ma (remaining - 1/100 * (((max 1 (b + 1) : ℕ) : ℚ) - 1))

/-- One iteration's rounded uniform draw (`main.py` lines 332-333). -/
def fillDraw (rng : ℕ → ℚ) (ma remaining : ℚ) (b c : ℕ) : ℚ :=
  round2 (uniform (1/100) (fillMaxThis ma remaining b) (rng c))

/-- One iteration's appended amount after the `if amount > remaining` cap
(`main.py` lines 335-336). -/
def fillStepAmount (rng : ℕ → ℚ) (ma remaining : ℚ) (b c : ℕ) : ℚ :=
  if remaining < fillDraw rng ma remaining b c then remaining
  else fillDraw rng ma remaining b c

/-- The greedy fill loop (`main.py` lines 325-339 and, mirrored, 371-385):
`while remaining > min_tx_amount and len(amounts) < target_count`.  The
budget argument is `target_count - len(amounts)`. -/
def fillLoop (rng : ℕ → ℚ) (ma : ℚ) : ℕ → List ℚ → ℚ → ℕ → List ℚ × ℚ × ℕ
  | 0, acc, remaining, c => (acc, remaining, c)
  | b + 1, acc, remaining, c =>
    if 1/100 < remaining then
      fillLoop rng ma b (acc ++ [fillStepAmount rng ma remaining b c])
        (remaining - fillStepAmount rng ma remaining b c) (c + 1)
    else (acc, remaining, c)

/-- The extra splitting loop (`main.py` lines 342-351 / 388-397):
`while remaining > min_tx_amount`, fueled because it need not terminate. -/
def splitLoop (rng : ℕ → ℚ) (ma : ℚ) : ℕ → List ℚ → ℚ → ℕ → Option (List ℚ × ℚ × ℕ)
  | 0, acc, remaining, c => if 1/100 < remaining then none else some (acc, remaining, c)
  | fuel + 1, acc, remaining, c =>
    if 1/100 < remaining then
      if remaining ≤ ma then some (acc ++ [round2 remaining], 0, c)
      else
        let a := round2 (uniform (ma * (1/2)) ma (rng c))
        splitLoop rng ma fuel (acc ++ [a]) (remaining - a) (c + 1)
    else some (acc, remaining, c)

/-- Fold the final remainder into the last amount if that stays within
`max_amount`, else append it (`main.py` lines 354-360 / 400-406); only acts on
a nonempty list, as the code guards with `and received_amounts`. -/
def foldLast (ma rem : ℚ) : List ℚ → List ℚ
  | [] => []
  | [a] => if a + rem ≤ ma then [round2 (a + rem)] else [a, round2 rem]
  | a :: b :: rest => a :: foldLast ma rem (b :: rest)

/-- Guard `if remaining > 0 and amounts:` wrapped around `foldLast`. -/
def foldRemainder (ma rem : ℚ) (amts : List ℚ) : List ℚ :=
  if 0 < rem then foldLast ma rem amts else amts

/-- The `difference > 0` branch (`main.py` lines 304-360): draw the sent
outflows, then greedily fill received amounts covering
`total_amount + sent_total`.  Returns `(received, sent, next index)`. -/
def posBranch (rng : ℕ → ℚ) (fuel : ℕ) (ma total : ℚ) (mc msc : ℤ) (c : ℕ) :
    Option (List ℚ × List ℚ × ℕ) :=
  let s := sentDraws rng ma total msc.toNat c
  let receivedTotalNeeded := total + s.2.1
  let receivedCount := (max 1 (mc - msc)).toNat
  let f := fillLoop rng ma receivedCount [] receivedTotalNeeded s.2.2
  match splitLoop rng ma fuel f.1 f.2.1 f.2.2 with
  | none => none
  | some (ra, rem, c') => some (foldRemainder ma rem ra, s.1, c')

/-- The `difference < 0` branch (`main.py` lines 362-406): everything is a
sent amount, targeting `max(min_sent_count, min_count)` rows. -/
def negBranch (rng : ℕ → ℚ) (fuel : ℕ) (ma total : ℚ) (mc msc : ℤ) (c : ℕ) :
    Option (List ℚ × List ℚ × ℕ) :=
  let sentCount := (max msc mc).toNat
  let f := fillLoop rng ma sentCount [] total c
  match splitLoop rng ma fuel f.1 f.2.1 f.2.2 with
  | none => none
  | some (sa, rem, c') => some (([] : List ℚ), foldRemainder ma rem sa, c')

/-- Per-row timestamp (`main.py` lines 413-422 / 453-462): a uniform random
second count in `[0, now - earliest]`, floored to the minute; degenerate range
falls back to `now` un-truncated. -/
def mkTime (irng : ℕ → ℕ → ℕ) (now earliest : ℕ) (k : ℕ) : ℕ :=
  let timeRange := now - earliest
  if timeRange = 0 then now
  else minuteFloor (earliest + irng k timeRange)

/-- Build the `Transaction` rows for one direction (`main.py` lines 412-449 /
452-489), consuming one oracle index per row. -/
def buildTxs (irng : ℕ → ℕ → ℕ) (cps dstr : ℕ → String) (now earliest : ℕ)
    (currency ty desc : String) : List ℚ → ℕ → List Transaction
  | [], _ => []
  | a :: rest, c =>
    { id := none, tx_type := ty, amount := a, currency := currency,
      counterparty := cps c, date := dstr c, description := desc,
      created_at := mkTime irng now earliest c } ::
      buildTxs irng cps dstr now earliest currency ty desc rest (c + 1)

/-- Sorting step `all_transactions.sort(key=lambda x: x.created_at)` (`main.py` line 492). -/
def sortByCreated (l : List Transaction) : List Transaction :=
  l.mergeSort (fun a b => decide (a.created_at ≤ b.created_at))

/-- Error outcomes of the generator endpoint. -/
inductive GenErr where
  | notFound : GenErr
  | invalidArg (msg : String) : GenErr
  | nonTermination : GenErr
deriving DecidableEq

/-- Success outcomes: the early `"Balance already matches target"` return, or
a generated batch carrying the amount lists and the sorted persisted rows. -/
inductive GenOk where
  | alreadyMatches : GenOk
  | generated (receivedAmts sentAmts : List ℚ) (newTxs : List Transaction) : GenOk
deriving DecidableEq

/-- Amount generation plus row construction, after validation has fixed
`earliest` (`main.py` lines 295-507). -/
def generateCore (rng : ℕ → ℚ) (irng : ℕ → ℕ → ℕ) (cps dstr : ℕ → String)
    (fuel now : ℕ) (currency : String) (difference : ℚ) (mc : ℤ) (ma : ℚ)
    (msc : ℤ) (earliest : ℕ) : Except GenErr GenOk :=
  let total := |difference|
  match (if 0 < difference then posBranch rng fuel ma total mc msc 0
         else negBranch rng fuel ma total mc msc 0) with
  | none => .error .nonTermination
  | some (recAmts, sentAmts, c) =>
    let recTxs := buildTxs irng cps dstr now earliest currency "received" "Received" recAmts c
    let sentTxs :=
      buildTxs irng cps dstr now earliest currency "sent" "Sent" sentAmts (c + recAmts.length)
    .ok (.generated recAmts sentAmts (sortByCreated (recTxs ++ sentTxs)))

/-- Endpoint `POST /api/transactions/generate` (`main.py` lines 230-507).  `start_time`
is the parsed instant of the request string (the endpoint keeps only minute
precision of it: `strip()[:16]` then `replace(second=0)`, i.e. `minuteFloor`). -/
def generate_transactions (rng : ℕ → ℚ) (irng : ℕ → ℕ → ℕ) (cps dstr : ℕ → String)
    (fuel now : ℕ) (account? : Option Account) (txs : List Transaction)
    (min_count : ℤ) (max_amount : ℚ) (min_sent_count : ℤ)
    (start_time : Option ℕ) : Except GenErr GenOk :=
  match account? with
  | none => .error .notFound
  | some account =>
    let difference := account.balance - actualBalance txs
    if |difference| < 1/100 then .ok .alreadyMatches
    else if min_count < 1 then .error (.invalidArg "min_count must be at least 1")
    else if max_amount ≤ 0 then .error (.invalidArg "max_amount must be greater than 0")
    else if min_sent_count < 0 then .error (.invalidArg "min_sent_count must be non-negative")
    else if min_count < min_sent_count then
      .error (.invalidArg "min_sent_count cannot be greater than min_count")
    else
      match start_time with
      | some st =>
        if now < minuteFloor st then .error (.invalidArg "start_time cannot be later than now")
        else
          generateCore rng irng cps dstr fuel now account.currency difference
            min_count max_amount min_sent_count (minuteFloor st)
      | none =>
        generateCore rng irng cps dstr fuel now account.currency difference
          min_count max_amount min_sent_count (now - 30 * 86400)

/-- Rows in the store after the endpoint returns: a generated batch is
committed in one batch, every other outcome leaves the store unchanged. -/
def persistedStore (old : List Transaction) (res : Except GenErr GenOk) : List Transaction :=
  match res with
  | .ok (.generated _ _ newTxs) => old ++ newTxs
  | _ => old

/-- Endpoint `PUT /api/account` (`main.py` lines 189-202): `model_dump
(exclude_unset=True)` then `setattr` per supplied field. -/
def applyAccountUpdate (account : Account) (data : AccountUpdate) : Account :=
  { id := account.id
    holder_name := data.holder_name.getD account.holder_name
    account_number := data.account_number.getD account.account_number
    routing_number := data.routing_number.getD account.routing_number
    holder_address := data.holder_address.getD account.holder_address
    bank_name := data.bank_name.getD account.bank_name
    bank_address := data.bank_address.getD account.bank_address
    country := data.country.getD account.country
    balance := data.balance.getD account.balance
    currency := data.currency.getD account.currency
    first_name := data.first_name.getD account.first_name
    last_name := data.last_name.getD account.last_name
    date_of_birth := data.date_of_birth.getD account.date_of_birth
    email := data.email.getD account.email
    phone_number := data.phone_number.getD account.phone_number
    address := data.address.getD account.address }

/-- Endpoint `POST /api/transactions` (`main.py` lines 510-516): no validation of
`tx_type`; `created_at` defaults to `datetime.now()`. -/
def create_transaction (now : ℕ) (store : List Transaction) (data : TransactionCreate) :
    List Transaction :=
  store ++
    [{ id := none, tx_type := data.tx_type, amount := data.amount,
       currency := data.currency, counterparty := data.counterparty,
       date := data.date, description := data.description, created_at := now }]

/-- Endpoint PUT of a single transaction, field merge (`main.py` lines 519-532):
again no validation of `tx_type`. -/
def applyTransactionUpdate (tx : Transaction) (data : TransactionUpdate) : Transaction :=
  { id := tx.id
    tx_type := data.tx_type.getD tx.tx_type
    amount := data.amount.getD tx.amount
    currency := data.currency.getD tx.currency
    counterparty := data.counterparty.getD tx.counterparty
    date := data.date.getD tx.date
    description := data.description.getD tx.description
    created_at := tx.created_at }

/-- Outcome of `GET /admin` (`main.py` lines 608-631). -/
inductive AdminPageResult where
  | redirectLogin : AdminPageResult
  | page : AdminPageResult
deriving DecidableEq

/-- Endpoint `GET /admin` (`main.py` lines 608-622): the handler receives the process
state `active_sessions` but only tests cookie truthiness (`if not
admin_session`, false for `None` and for the empty string). -/
def admin_page (admin_session : Option String) (active_sessions : List String) :
    AdminPageResult :=
  match admin_session with
  | none => .redirectLogin
  | some s => if s = "" then .redirectLogin else .page

/-- Endpoint `GET /admin/logout` server-side effect (`main.py` lines 598-605):
discard the cookie's token from `active_sessions`. -/
def admin_logout (admin_session : Option String) (active_sessions : List String) :
    List String :=
  match admin_session with
  | some s => active_sessions.erase s
  | none => active_sessions

/-- Sum of the amounts of the rows with the given `tx_type`. -/
def sumAmountsOfType (ty : String) (l : List Transaction) : ℚ :=
  ((l.filter (fun tx => tx.tx_type == ty)).map Transaction.amount).sum

/-- Number of rows with the given `tx_type`. -/
def countOfType (ty : String) (l : List Transaction) : ℕ :=
  l.countP (fun tx => tx.tx_type == ty)

/-- Observation helper: the `tx_type` column of a generated batch. -/
def genRowTypes : Except GenErr GenOk → Option (List String)
  | .ok (.generated _ _ newTxs) => some (newTxs.map Transaction.tx_type)
  | _ => none

/-- Observation helper: the `created_at` column of a generated batch. -/
def genRowTimes : Except GenErr GenOk → Option (List ℕ)
  | .ok (.generated _ _ newTxs) => some (newTxs.map Transaction.created_at)
  | _ => none

/-- Observation helper: did the call fail with the invalid-argument error? -/
def isInvalidArg : Except GenErr GenOk → Bool
  | .error (.invalidArg _) => true
  | _ => false

/-- Lower bound satisfied by every generated timestamp: the minute floor of
the effective earliest time. -/
def startLowerBound (now : ℕ) (start_time : Option ℕ) : ℕ :=
  minuteFloor (match start_time with
    | some st => minuteFloor st
    | none => now - 30 * 86400)

/-- Seed account from `seed_data` (`main.py` lines 53-69). -/
def seedAccount : Account :=
  { id := some 1
    holder_name := "AMY VANESSA DAVIS"
    account_number := "215979558875"
    routing_number := "101019644"
    holder_address := "PTB 24692, Jalan Senyum, Johor Bahru, Johor 80300"
    bank_name := "Lead Bank in the USA"
    bank_address := "1801 Main St., Kansas City, MO 64108"
    country := "USA"
    balance := 19/20
    currency := "USD"
    first_name := "Minlan"
    last_name := "Zhou"
    date_of_birth := "3 Dec 1998"
    email := "rxehjqv4297@hotmail.com"
    phone_number := "+18633890587"
    address := "123 Main St, San Francisco, CA 94102" }

/-- Seed transactions from `seed_data` (`main.py` lines 72-100). -/
def seedTxs : List Transaction :=
  [{ id := some 1, tx_type := "sent", amount := 961/20, currency := "USD",
     counterparty := "AZVQ...C8bB", date := "08 Feb - 01:44 PM",
     description := "Sent", created_at := 1707399840 },
   { id := some 2, tx_type := "received", amount := 49, currency := "USDT",
     counterparty := "TK4y...n3qJ", date := "08 Feb - 01:41 PM",
     description := "Received", created_at := 1707399660 },
   { id := some 3, tx_type := "fee", amount := 0, currency := "USD",
     counterparty := "", date := "04 Feb - 02:03 AM",
     description := "Card fee", created_at := 1707012180 }]

/-! ### Arithmetic facts about `round2` and `uniform` -/

theorem round2_abs_sub (x : ℚ) : |round2 x - x| ≤ 1/200 := by
  have h : |(round (100 * x) : ℚ) - 100 * x| ≤ 1/2 := by
    have h2 := abs_sub_round (100 * x)
    rwa [abs_sub_comm] at h2
  have heq : round2 x - x = ((round (100 * x) : ℚ) - 100 * x) / 100 := by
    rw [round2]; ring
  rw [heq, abs_div, abs_of_pos (by norm_num : (0:ℚ) < 100)]
  linarith

theorem round2_le_add (x : ℚ) : round2 x ≤ x + 1/200 := by
  have h := round2_abs_sub x
  rw [abs_le] at h
  linarith [h.2]

theorem sub_le_round2 (x : ℚ) : x - 1/200 ≤ round2 x := by
  have h := round2_abs_sub x
  rw [abs_le] at h
  linarith [h.1]

theorem round2_mono : Monotone round2 := by
  intro x y hxy
  rw [round2, round2]
  have h : round (100 * x) ≤ round (100 * y) := by
    rw [round_eq, round_eq]
    exact Int.floor_mono (by linarith)
  have h100 : (0:ℚ) < 100 := by norm_num
  have hc : ((round (100 * x) : ℤ) : ℚ) ≤ ((round (100 * y) : ℤ) : ℚ) := by exact_mod_cast h
  exact div_le_div_of_nonneg_right hc (by norm_num)

theorem round2_cent : round2 (1/100) = 1/100 := by
  rw [round2]
  norm_num

/-- Every `round(x, 2)` of a draw bounded by `max(0.01, max_amount)` stays
below `max_amount + 0.01`. -/
theorem round2_le_bound {ma u : ℚ} (hma : 0 < ma) (hu : u ≤ max (1/100) ma) :
    round2 u ≤ ma + 1/100 := by
  have h1 : round2 u ≤ round2 (max (1/100) ma) := round2_mono hu
  have h2 : round2 (max (1/100) ma) = max (round2 (1/100)) (round2 ma) := round2_mono.map_max
  have h3 : round2 ma ≤ ma + 1/200 := round2_le_add ma
  rw [h2, round2_cent] at h1
  have h4 : max (1/100 : ℚ) (round2 ma) ≤ ma + 1/100 :=
    max_le (by linarith) (by linarith)
  linarith

theorem uniform_le_max {r : ℚ} (lo hi : ℚ) (h0 : 0 ≤ r) (h1 : r ≤ 1) :
    uniform lo hi r ≤ max lo hi := by
  rcases le_total lo hi with h | h
  · have hm : (hi - lo) * r ≤ (hi - lo) * 1 :=
      mul_le_mul_of_nonneg_left h1 (by linarith)
    have : uniform lo hi r ≤ hi := by rw [uniform]; linarith
    exact this.trans (le_max_right _ _)
  · have hm : (hi - lo) * r ≤ 0 := mul_nonpos_of_nonpos_of_nonneg (by linarith) h0
    have : uniform lo hi r ≤ lo := by rw [uniform]; linarith
    exact this.trans (le_max_left _ _)

theorem min_le_uniform {r : ℚ} (lo hi : ℚ) (h0 : 0 ≤ r) (h1 : r ≤ 1) :
    min lo hi ≤ uniform lo hi r := by
  rcases le_total lo hi with h | h
  · have hm : 0 ≤ (hi - lo) * r := mul_nonneg (by linarith) h0
    have : lo ≤ uniform lo hi r := by rw [uniform]; linarith
    exact (min_le_left _ _).trans this
  · have hm : (hi - lo) * 1 ≤ (hi - lo) * r := by nlinarith
    have : hi ≤ uniform lo hi r := by rw [uniform]; linarith
    exact (min_le_right _ _).trans this

/-! ### The accounting step (`actual_balance`) -/

/-- Per-row contribution to `actual_balance`. -/
def txContribution (tx : Transaction) : ℚ :=
  if tx.tx_type = "received" then tx.amount
  else if tx.tx_type = "sent" then tx.amount
  else 0

theorem actualBalance_foldl (txs : List Transaction) : ∀ init : ℚ,
    txs.foldl (fun acc tx =>
      if tx.tx_type = "received" then acc + tx.amount
      else if tx.tx_type = "sent" then acc + tx.amount
      else acc) init
      = init + (txs.map txContribution).sum := by
  induction txs with
  | nil => intro init; simp
  | cons tx rest ih =>
    intro init
    simp only [List.foldl_cons, List.map_cons, List.sum_cons, txContribution]
    split_ifs <;> rw [ih] <;> ring

theorem actualBalance_eq_sum (txs : List Transaction) :
    actualBalance txs = (txs.map txContribution).sum := by
  rw [actualBalance, actualBalance_foldl]
  ring

/-- C7: the generator's accounting step sums only "received" and "sent"
rows (sent amounts taken as already negative); a "fee" row contributes
nothing to the computed difference, whatever its amount. -/
theorem fee_rows_do_not_affect_accounting (l1 l2 : List Transaction)
    (tx : Transaction) (hfee : tx.tx_type = "fee") :
    actualBalance (l1 ++ tx :: l2) = actualBalance (l1 ++ l2) := by
  rw [actualBalance_eq_sum, actualBalance_eq_sum]
  have hc : txContribution tx = 0 := by
    rw [txContribution, hfee, if_neg (by decide : ¬("fee" : String) = "received"),
      if_neg (by decide : ¬("fee" : String) = "sent")]
  simp [hc]

/-- Witness for C7: dropping the seeded "fee" row (even with its amount
changed to 123.45) does not change the computed actual balance. -/
theorem fee_rows_do_not_affect_accounting_witness :
    actualBalance
        [{ id := some 1, tx_type := "sent", amount := 961/20, currency := "USD",
           counterparty := "AZVQ...C8bB", date := "08 Feb - 01:44 PM",
           description := "Sent", created_at := 1707399840 },
         { id := some 3, tx_type := "fee", amount := 12345/100, currency := "USD",
           counterparty := "", date := "04 Feb - 02:03 AM",
           description := "Card fee", created_at := 1707012180 },
         { id := some 2, tx_type := "received", amount := 49, currency := "USDT",
           counterparty := "TK4y...n3qJ", date := "08 Feb - 01:41 PM",
           description := "Received", created_at := 1707399660 }]
      = actualBalance
        [{ id := some 1, tx_type := "sent", amount := 961/20, currency := "USD",
           counterparty := "AZVQ...C8bB", date := "08 Feb - 01:44 PM",
           description := "Sent", created_at := 1707399840 },
         { id := some 2, tx_type := "received", amount := 49, currency := "USDT",
           counterparty := "TK4y...n3qJ", date := "08 Feb - 01:41 PM",
           description := "Received", created_at := 1707399660 }] :=
  fee_rows_do_not_affect_accounting
    [{ id := some 1, tx_type := "sent", amount := 961/20, currency := "USD",
       counterparty := "AZVQ...C8bB", date := "08 Feb - 01:44 PM",
       description := "Sent", created_at := 1707399840 }]
    [{ id := some 2, tx_type := "received", amount := 49, currency := "USDT",
       counterparty := "TK4y...n3qJ", date := "08 Feb - 01:41 PM",
       description := "Received", created_at := 1707399660 }]
    { id := some 3, tx_type := "fee", amount := 12345/100, currency := "USD",
      counterparty := "", date := "04 Feb - 02:03 AM",
      description := "Card fee", created_at := 1707012180 }
    rfl

/-! ### Account partial update (C9) -/

/-- C9: the partial account update sets exactly the supplied fields and
leaves every unsupplied field (and the primary key) unchanged. -/
theorem account_update_exactly_supplied_fields (account : Account) (data : AccountUpdate) :
    (applyAccountUpdate account data).id = account.id ∧
    ((data.holder_name = none →
        (applyAccountUpdate account data).holder_name = account.holder_name) ∧
      ∀ v, data.holder_name = some v → (applyAccountUpdate account data).holder_name = v) ∧
    ((data.account_number = none →
        (applyAccountUpdate account data).account_number = account.account_number) ∧
      ∀ v, data.account_number = some v → (applyAccountUpdate account data).account_number = v) ∧
    ((data.routing_number = none →
        (applyAccountUpdate account data).routing_number = account.routing_number) ∧
      ∀ v, data.routing_number = some v → (applyAccountUpdate account data).routing_number = v) ∧
    ((data.holder_address = none →
        (applyAccountUpdate account data).holder_address = account.holder_address) ∧
      ∀ v, data.holder_address = some v → (applyAccountUpdate account data).holder_address = v) ∧
    ((data.bank_name = none →
        (applyAccountUpdate account data).bank_name = account.bank_name) ∧
      ∀ v, data.bank_name = some v → (applyAccountUpdate account data).bank_name = v) ∧
    ((data.bank_address = none →
        (applyAccountUpdate account data).bank_address = account.bank_address) ∧
      ∀ v, data.bank_address = some v → (applyAccountUpdate account data).bank_address = v) ∧
    ((data.country = none →
        (applyAccountUpdate account data).country = account.country) ∧
      ∀ v, data.country = some v → (applyAccountUpdate account data).country = v) ∧
    ((data.balance = none →
        (applyAccountUpdate account data).balance = account.balance) ∧
      ∀ v, data.balance = some v → (applyAccountUpdate account data).balance = v) ∧
    ((data.currency = none →
        (applyAccountUpdate account data).currency = account.currency) ∧
      ∀ v, data.currency = some v → (applyAccountUpdate account data).currency = v) ∧
    ((data.first_name = none →
        (applyAccountUpdate account data).first_name = account.first_name) ∧
      ∀ v, data.first_name = some v → (applyAccountUpdate account data).first_name = v) ∧
    ((data.last_name = none →
        (applyAccountUpdate account data).last_name = account.last_name) ∧
      ∀ v, data.last_name = some v → (applyAccountUpdate account data).last_name = v) ∧
    ((data.date_of_birth = none →
        (applyAccountUpdate account data).date_of_birth = account.date_of_birth) ∧
      ∀ v, data.date_of_birth = some v → (applyAccountUpdate account data).date_of_birth = v) ∧
    ((data.email = none →
        (applyAccountUpdate account data).email = account.email) ∧
      ∀ v, data.email = some v → (applyAccountUpdate account data).email = v) ∧
    ((data.phone_number = none →
        (applyAccountUpdate account data).phone_number = account.phone_number) ∧
      ∀ v, data.phone_number = some v → (applyAccountUpdate account data).phone_number = v) ∧
    ((data.address = none →
        (applyAccountUpdate account data).address = account.address) ∧
      ∀ v, data.address = some v → (applyAccountUpdate account data).address = v) :=
  ⟨rfl,
   ⟨fun h => by simp [applyAccountUpdate, h], fun v h => by simp [applyAccountUpdate, h]⟩,
   ⟨fun h => by simp [applyAccountUpdate, h], fun v h => by simp [applyAccountUpdate, h]⟩,
   ⟨fun h => by simp [applyAccountUpdate, h], fun v h => by simp [applyAccountUpdate, h]⟩,
   ⟨fun h => by simp [applyAccountUpdate, h], fun v h => by simp [applyAccountUpdate, h]⟩,
   ⟨fun h => by simp [applyAccountUpdate, h], fun v h => by simp [applyAccountUpdate, h]⟩,
   ⟨fun h => by simp [applyAccountUpdate, h], fun v h => by simp [applyAccountUpdate, h]⟩,
   ⟨fun h => by simp [applyAccountUpdate, h], fun v h => by simp [applyAccountUpdate, h]⟩,
   ⟨fun h => by simp [applyAccountUpdate, h], fun v h => by simp [applyAccountUpdate, h]⟩,
   ⟨fun h => by simp [applyAccountUpdate, h], fun v h => by simp [applyAccountUpdate, h]⟩,
   ⟨fun h => by simp [applyAccountUpdate, h], fun v h => by simp [applyAccountUpdate, h]⟩,
   ⟨fun h => by simp [applyAccountUpdate, h], fun v h => by simp [applyAccountUpdate, h]⟩,
   ⟨fun h => by simp [applyAccountUpdate, h], fun v h => by simp [applyAccountUpdate, h]⟩,
   ⟨fun h => by simp [applyAccountUpdate, h], fun v h => by simp [applyAccountUpdate, h]⟩,
   ⟨fun h => by simp [applyAccountUpdate, h], fun v h => by simp [applyAccountUpdate, h]⟩,
   ⟨fun h => by simp [applyAccountUpdate, h], fun v h => by simp [applyAccountUpdate, h]⟩⟩

/-- Witness for C9: patching only the balance of the seed account sets the
balance and leaves the email (an unsupplied field) untouched. -/
theorem account_update_exactly_supplied_fields_witness :
    (applyAccountUpdate seedAccount
        { holder_name := none, account_number := none, routing_number := none,
          holder_address := none, bank_name := none, bank_address := none,
          country := none, balance := some 5, currency := none,
          first_name := none, last_name := none, date_of_birth := none,
          email := none, phone_number := none, address := none }).balance = 5 ∧
    (applyAccountUpdate seedAccount
        { holder_name := none, account_number := none, routing_number := none,
          holder_address := none, bank_name := none, bank_address := none,
          country := none, balance := some 5, currency := none,
          first_name := none, last_name := none, date_of_birth := none,
          email := none, phone_number := none, address := none }).email
      = seedAccount.email := by
  constructor
  · exact (account_update_exactly_supplied_fields seedAccount
      { holder_name := none, account_number := none, routing_number := none,
        holder_address := none, bank_name := none, bank_address := none,
        country := none, balance := some 5, currency := none,
        first_name := none, last_name := none, date_of_birth := none,
        email := none, phone_number := none, address := none }).2.2.2.2.2.2.2.2.1.2 5 rfl
  · exact (account_update_exactly_supplied_fields seedAccount
      { holder_name := none, account_number := none, routing_number := none,
        holder_address := none, bank_name := none, bank_address := none,
        country := none, balance := some 5, currency := none,
        first_name := none, last_name := none, date_of_birth := none,
        email := none, phone_number := none, address := none }).2.2.2.2.2.2.2.2.2.2.2.2.2.1.1 rfl

/-! ### Admin page session check (C10) -/

/-- C10: `GET /admin` never consults the server-side session set (the outcome
is identical for any two session-set contents), and any non-empty cookie value
is served the page. -/
theorem admin_page_ignores_active_sessions (cookie : Option String) (s1 s2 : List String) :
    admin_page cookie s1 = admin_page cookie s2 ∧
      (∀ c, cookie = some c → c ≠ "" → admin_page cookie s1 = .page) := by
  constructor
  · cases cookie <;> rfl
  · intro c hc hne
    subst hc
    simp [admin_page, hne]

/-- Witness for C10: a token never present in the session set (and absent
from it even after a logout) still gets the admin page served. -/
theorem admin_page_ignores_active_sessions_witness :
    admin_page (some "never-issued-token") [] = .page ∧
      admin_page (some "never-issued-token") []
        = admin_page (some "never-issued-token") ["issued1", "issued2"] := by
  constructor
  · exact (admin_page_ignores_active_sessions (some "never-issued-token") []
      ["issued1", "issued2"]).2 "never-issued-token" rfl (by decide)
  · exact (admin_page_ignores_active_sessions (some "never-issued-token") []
      ["issued1", "issued2"]).1

/-! ### Early return and argument validation (C3, C2) -/

/-- C3: whenever the target differs from the recorded sum by less than 0.01,
the generator returns the zero-generated result and persists nothing. -/
theorem generate_noop_when_balance_matches
    (rng : ℕ → ℚ) (irng : ℕ → ℕ → ℕ) (cps dstr : ℕ → String) (fuel now : ℕ)
    (account : Account) (txs : List Transaction) (mc : ℤ) (ma : ℚ) (msc : ℤ)
    (st : Option ℕ)
    (hdiff : |account.balance - actualBalance txs| < 1/100) :
    generate_transactions rng irng cps dstr fuel now (some account) txs mc ma msc st
        = .ok .alreadyMatches ∧
      persistedStore txs
          (generate_transactions rng irng cps dstr fuel now (some account) txs mc ma msc st)
        = txs := by
  have h : generate_transactions rng irng cps dstr fuel now (some account) txs mc ma msc st
      = .ok .alreadyMatches := by
    simp only [generate_transactions]
    rw [if_pos hdiff]
  exact ⟨h, by rw [h]; rfl⟩

/-- Witness for C3: against the seed transactions (sent 48.05, received
49.00, fee 0.00, summing to 97.05 under the accounting step) a target balance
of 97.05 short-circuits: the call is a no-op. -/
theorem generate_noop_when_balance_matches_witness :
    generate_transactions (fun _ => 0) (fun _ _ => 0) (fun _ => "") (fun _ => "")
        0 0 (some { seedAccount with balance := 1941/20 }) seedTxs 10 100 0 none
        = .ok .alreadyMatches ∧
      persistedStore seedTxs
          (generate_transactions (fun _ => 0) (fun _ _ => 0) (fun _ => "") (fun _ => "")
            0 0 (some { seedAccount with balance := 1941/20 }) seedTxs 10 100 0 none)
        = seedTxs :=
  generate_noop_when_balance_matches (fun _ => 0) (fun _ _ => 0) (fun _ => "") (fun _ => "")
    0 0 { seedAccount with balance := 1941/20 } seedTxs 10 100 0 none
    (by norm_num [actualBalance, seedTxs, seedAccount])

/-- C2 counterexample: with a target of 97.05 over the seed transactions the
balance already matches, so an invocation with the invalid argument
`min_count = 0` is answered with success (the zero-generated result) instead
of the invalid-argument error — the early return precedes all validation. -/
theorem invalid_args_accepted_when_balance_matches :
    generate_transactions (fun _ => 0) (fun _ _ => 0) (fun _ => "") (fun _ => "")
        0 0 (some { seedAccount with balance := 1941/20 }) seedTxs 0 100 0 none
        = .ok .alreadyMatches ∧
      (0 : ℤ) < 1 := by
  refine ⟨?_, by decide⟩
  simp only [generate_transactions]
  rw [if_pos (by norm_num [actualBalance, seedTxs, seedAccount])]

/-- C2 (amended): provided the balance difference has not already matched
(`|difference| ≥ 0.01`; otherwise the endpoint returns success before any
validation runs), every invocation with an invalid argument — `min_count < 1`,
`max_amount ≤ 0`, `min_sent_count < 0`, `min_sent_count > min_count`, or a
`start_time` whose minute-precision value is later than now — fails with the
invalid-argument client error and persists no rows. -/
theorem invalid_args_rejected
    (rng : ℕ → ℚ) (irng : ℕ → ℕ → ℕ) (cps dstr : ℕ → String) (fuel now : ℕ)
    (account : Account) (txs : List Transaction) (mc : ℤ) (ma : ℚ) (msc : ℤ)
    (st : Option ℕ)
    (hdiff : 1/100 ≤ |account.balance - actualBalance txs|)
    (hbad : mc < 1 ∨ ma ≤ 0 ∨ msc < 0 ∨ mc < msc ∨
      (∃ t, st = some t ∧ now < minuteFloor t)) :
    isInvalidArg
        (generate_transactions rng irng cps dstr fuel now (some account) txs mc ma msc st)
        = true ∧
      persistedStore txs
          (generate_transactions rng irng cps dstr fuel now (some account) txs mc ma msc st)
        = txs := by
  have hd : ¬ |account.balance - actualBalance txs| < 1/100 := not_lt.mpr hdiff
  suffices hres : ∃ m,
      generate_transactions rng irng cps dstr fuel now (some account) txs mc ma msc st
        = .error (.invalidArg m) by
    obtain ⟨m, hm⟩ := hres
    rw [hm]
    exact ⟨rfl, rfl⟩
  by_cases h1 : mc < 1
  · exact ⟨_, by simp only [generate_transactions]; rw [if_neg hd, if_pos h1]⟩
  by_cases h2 : ma ≤ 0
  · exact ⟨_, by simp only [generate_transactions]; rw [if_neg hd, if_neg h1, if_pos h2]⟩
  by_cases h3 : msc < 0
  · exact ⟨_, by
      simp only [generate_transactions]
      rw [if_neg hd, if_neg h1, if_neg h2, if_pos h3]⟩
  by_cases h4 : mc < msc
  · exact ⟨_, by
      simp only [generate_transactions]
      rw [if_neg hd, if_neg h1, if_neg h2, if_neg h3, if_pos h4]⟩
  rcases hbad with h | h | h | h | ⟨t, hst, hlt⟩
  · exact absurd h h1
  · exact absurd h h2
  · exact absurd h h3
  · exact absurd h h4
  · subst hst
    exact ⟨_, by
      simp only [generate_transactions]
      rw [if_neg hd, if_neg h1, if_neg h2, if_neg h3, if_neg h4, if_pos hlt]⟩

/-- Witness for C2 (amended): target 5 against an empty ledger (difference 5),
called with `min_count = 0`: the call errors and the store stays empty. -/
theorem invalid_args_rejected_witness :
    isInvalidArg
        (generate_transactions (fun _ => 0) (fun _ _ => 0) (fun _ => "") (fun _ => "")
          0 0 (some { seedAccount with balance := 5 }) [] 0 100 0 none)
        = true ∧
      persistedStore []
          (generate_transactions (fun _ => 0) (fun _ _ => 0) (fun _ => "") (fun _ => "")
            0 0 (some { seedAccount with balance := 5 }) [] 0 100 0 none)
        = [] :=
  invalid_args_rejected (fun _ => 0) (fun _ _ => 0) (fun _ => "") (fun _ => "")
    0 0 { seedAccount with balance := 5 } [] 0 100 0 none
    (by norm_num [actualBalance, seedAccount]) (Or.inl (by decide))

/-! ### Specifications of the generation loops -/

theorem round2_zero : round2 0 = 0 := by
  rw [round2]
  norm_num

theorem round2_nonneg {x : ℚ} (h : 0 ≤ x) : 0 ≤ round2 x := by
  have hm := round2_mono h
  rwa [round2_zero] at hm

/-- Each outflow draw of the positive branch is nonnegative and bounded by
`max_amount + 0.01`; `sent_total` is their sum and their number is exactly
`min_sent_count`. -/
theorem sentDraws_spec (rng : ℕ → ℚ) (ma total : ℚ) (hr : URng rng) (hma : 0 < ma)
    (htot : 0 ≤ total) :
    ∀ n c,
      (sentDraws rng ma total n c).2.1 = (sentDraws rng ma total n c).1.sum ∧
        (sentDraws rng ma total n c).1.length = n ∧
        ∀ a ∈ (sentDraws rng ma total n c).1, 0 ≤ a ∧ a ≤ ma + 1/100 := by
  intro n
  induction n with
  | zero =>
    intro c
    refine ⟨by simp [sentDraws], by simp [sentDraws], ?_⟩
    intro a ha
    simp [sentDraws] at ha
  | succ m ih =>
    intro c
    obtain ⟨h1, h2, h3⟩ := ih (c + 1)
    have hhi : 0 ≤ min ma (total * (3/10)) := le_min (le_of_lt hma) (by linarith)
    have hup : round2 (uniform (1/100) (min ma (total * (3/10))) (rng c)) ≤ ma + 1/100 := by
      apply round2_le_bound hma
      have hu := uniform_le_max (1/100) (min ma (total * (3/10))) (hr c).1 (hr c).2
      exact hu.trans (max_le_max le_rfl (min_le_left _ _))
    have hlo : 0 ≤ round2 (uniform (1/100) (min ma (total * (3/10))) (rng c)) := by
      apply round2_nonneg
      have hu := min_le_uniform (1/100) (min ma (total * (3/10))) (hr c).1 (hr c).2
      exact le_trans (le_min (by norm_num) hhi) hu
    simp only [sentDraws]
    refine ⟨by simp [h1], by simp [h2], ?_⟩
    intro a ha
    simp only [List.mem_cons] at ha
    rcases ha with rfl | ha
    · exact ⟨hlo, hup⟩
    · exact h3 a ha

theorem fillMaxThis_le (ma remaining : ℚ) (b : ℕ) : fillMaxThis ma remaining b ≤ ma := by
  rw [fillMaxThis]
  split
  · exact min_le_left _ _
  · exact min_le_left _ _

theorem fillDraw_le (rng : ℕ → ℚ) (ma remaining : ℚ) (b c : ℕ)
    (hr : URng rng) (hma : 0 < ma) :
    fillDraw rng ma remaining b c ≤ ma + 1/100 := by
  rw [fillDraw]
  apply round2_le_bound hma
  have hu := uniform_le_max (1/100) (fillMaxThis ma remaining b) (hr c).1 (hr c).2
  exact hu.trans (max_le_max le_rfl (fillMaxThis_le ma remaining b))

theorem fillStepAmount_le_rem (rng : ℕ → ℚ) (ma remaining : ℚ) (b c : ℕ) :
    fillStepAmount rng ma remaining b c ≤ remaining := by
  rw [fillStepAmount]
  split
  · exact le_rfl
  · exact le_of_not_lt (by assumption)

theorem fillStepAmount_le_bound (rng : ℕ → ℚ) (ma remaining : ℚ) (b c : ℕ)
    (hr : URng rng) (hma : 0 < ma) :
    fillStepAmount rng ma remaining b c ≤ ma + 1/100 := by
  rw [fillStepAmount]
  split
  · exact le_of_lt (lt_of_lt_of_le (by assumption) (fillDraw_le rng ma remaining b c hr hma))
  · exact fillDraw_le rng ma remaining b c hr hma

/-- The greedy fill preserves `sum(amounts) + remaining` exactly, keeps the
remainder nonnegative, and every new amount respects `max_amount + 0.01`. -/
theorem fillLoop_spec (rng : ℕ → ℚ) (ma : ℚ) (hr : URng rng) (hma : 0 < ma) :
    ∀ b acc remaining c, 0 ≤ remaining →
      (fillLoop rng ma b acc remaining c).1.sum + (fillLoop rng ma b acc remaining c).2.1
          = acc.sum + remaining ∧
        0 ≤ (fillLoop rng ma b acc remaining c).2.1 ∧
        ∀ a ∈ (fillLoop rng ma b acc remaining c).1, a ∈ acc ∨ a ≤ ma + 1/100 := by
  intro b
  induction b with
  | zero =>
    intro acc remaining c h0
    exact ⟨rfl, h0, fun a ha => Or.inl ha⟩
  | succ m ih =>
    intro acc remaining c h0
    by_cases hrem : 1/100 < remaining
    · have hle := fillStepAmount_le_rem rng ma remaining m c
      have hsub : 0 ≤ remaining - fillStepAmount rng ma remaining m c := by linarith
      obtain ⟨ih1, ih2, ih3⟩ := ih (acc ++ [fillStepAmount rng ma remaining m c])
        (remaining - fillStepAmount rng ma remaining m c) (c + 1) hsub
      have hunf : fillLoop rng ma (m + 1) acc remaining c
          = fillLoop rng ma m (acc ++ [fillStepAmount rng ma remaining m c])
              (remaining - fillStepAmount rng ma remaining m c) (c + 1) := by
        simp only [fillLoop, if_pos hrem]
      rw [hunf]
      refine ⟨?_, ih2, ?_⟩
      · rw [ih1, List.sum_append]
        simp
      · intro a ha
        rcases ih3 a ha with hacc | hb
        · rcases List.mem_append.mp hacc with hin | hin
          · exact Or.inl hin
          · have : a = fillStepAmount rng ma remaining m c := by simpa using hin
            subst this
            exact Or.inr (fillStepAmount_le_bound rng ma remaining m c hr hma)
        · exact Or.inr hb
    · have hunf : fillLoop rng ma (m + 1) acc remaining c = (acc, remaining, c) := by
        simp only [fillLoop, if_neg hrem]
      rw [hunf]
      exact ⟨rfl, h0, fun a ha => Or.inl ha⟩

/-- The splitting loop distorts `sum(amounts) + remaining` by at most one
half-cent (the single `round(remaining, 2)` before zeroing it), leaves the
final remainder in `[-1/200, 1/100]`, and bounds every new amount. -/
theorem splitLoop_spec (rng : ℕ → ℚ) (ma : ℚ) (hr : URng rng) (hma : 0 < ma) :
    ∀ fuel acc remaining c out rem' c',
      -1/200 ≤ remaining →
      splitLoop rng ma fuel acc remaining c = some (out, rem', c') →
      |out.sum + rem' - (acc.sum + remaining)| ≤ 1/200 ∧
        -1/200 ≤ rem' ∧ rem' ≤ 1/100 ∧
        ∀ a ∈ out, a ∈ acc ∨ a ≤ ma + 1/100 := by
  intro fuel
  induction fuel with
  | zero =>
    intro acc remaining c out rem' c' h0 heq
    simp only [splitLoop] at heq
    by_cases hrem : 1/100 < remaining
    · rw [if_pos hrem] at heq
      exact absurd heq (by simp)
    · rw [if_neg hrem] at heq
      simp only [Option.some.injEq, Prod.mk.injEq] at heq
      obtain ⟨rfl, rfl, rfl⟩ := heq
      refine ⟨by simp, h0, le_of_not_lt hrem, fun a ha => Or.inl ha⟩
  | succ m ih =>
    intro acc remaining c out rem' c' h0 heq
    simp only [splitLoop] at heq
    by_cases hrem : 1/100 < remaining
    · rw [if_pos hrem] at heq
      by_cases hfit : remaining ≤ ma
      · rw [if_pos hfit] at heq
        simp only [Option.some.injEq, Prod.mk.injEq] at heq
        obtain ⟨rfl, rfl, rfl⟩ := heq
        refine ⟨?_, by norm_num, by norm_num, ?_⟩
        · have hshape : (acc ++ [round2 remaining]).sum + 0 - (acc.sum + remaining)
              = round2 remaining - remaining := by
            rw [List.sum_append]
            simp
          rw [hshape]
          exact round2_abs_sub remaining
        · intro a ha
          rcases List.mem_append.mp ha with hin | hin
          · exact Or.inl hin
          · have : a = round2 remaining := by simpa using hin
            subst this
            have hmono := round2_mono hfit
            have hadd := round2_le_add ma
            exact Or.inr (by linarith)
      · rw [if_neg hfit] at heq
        set d := round2 (uniform (ma * (1/2)) ma (rng c)) with hd
        have hma2 : ma * (1/2) ≤ ma := by linarith
        have hdb : d ≤ ma + 1/200 := by
          rw [hd]
          have hu : uniform (ma * (1/2)) ma (rng c) ≤ ma := by
            have hmax := uniform_le_max (ma * (1/2)) ma (hr c).1 (hr c).2
            rwa [max_eq_right hma2] at hmax
          have hmono := round2_mono hu
          have hadd := round2_le_add ma
          linarith
        have hmalt : ma < remaining := lt_of_not_le hfit
        have hrec0 : -1/200 ≤ remaining - d := by linarith
        obtain ⟨i1, i2, i3, i4⟩ := ih (acc ++ [d]) (remaining - d) (c + 1) out rem' c' hrec0 heq
        refine ⟨?_, i2, i3, ?_⟩
        · have hsums : (acc ++ [d]).sum + (remaining - d) = acc.sum + remaining := by
            rw [List.sum_append]
            simp
          rw [← hsums]
          exact i1
        · intro a ha
          rcases i4 a ha with hin | hb
          · rcases List.mem_append.mp hin with hin2 | hin2
            · exact Or.inl hin2
            · have : a = d := by simpa using hin2
              subst this
              exact Or.inr (by linarith)
          · exact Or.inr hb
    · rw [if_neg hrem] at heq
      simp only [Option.some.injEq, Prod.mk.injEq] at heq
      obtain ⟨rfl, rfl, rfl⟩ := heq
      refine ⟨by simp, h0, le_of_not_lt hrem, fun a ha => Or.inl ha⟩

/-- Folding a remainder at most 0.01 into a nonempty amount list moves the
sum by at most half a cent from `sum + rem`, and any new amount stays within
`max_amount + 0.01`. -/
theorem foldLast_spec (ma rem : ℚ) (hma : 0 < ma) (hrem : rem ≤ 1/100) :
    ∀ l : List ℚ, l ≠ [] →
      |(foldLast ma rem l).sum - (l.sum + rem)| ≤ 1/200 ∧
        ∀ a ∈ foldLast ma rem l, a ∈ l ∨ a ≤ ma + 1/100
  | [], h => absurd rfl h
  | [a], _ => by
    by_cases hfit : a + rem ≤ ma
    · rw [foldLast, if_pos hfit]
      constructor
      · have hshape : ([round2 (a + rem)] : List ℚ).sum - ([a].sum + rem)
            = round2 (a + rem) - (a + rem) := by
          simp
        rw [hshape]
        exact round2_abs_sub (a + rem)
      · intro x hx
        have hxe : x = round2 (a + rem) := by simpa using hx
        subst hxe
        have hadd := round2_le_add (a + rem)
        exact Or.inr (by linarith)
    · rw [foldLast, if_neg hfit]
      constructor
      · have hshape : ([a, round2 rem] : List ℚ).sum - ([a].sum + rem)
            = round2 rem - rem := by
          simp
        rw [hshape]
        exact round2_abs_sub rem
      · intro x hx
        simp only [List.mem_cons, List.not_mem_nil, or_false] at hx
        rcases hx with rfl | rfl
        · exact Or.inl (by simp)
        · have hmono := round2_mono hrem
          rw [round2_cent] at hmono
          exact Or.inr (by linarith)
  | a :: b :: rest, _ => by
    obtain ⟨g1, g2⟩ := foldLast_spec ma rem hma hrem (b :: rest) (by simp)
    rw [foldLast]
    constructor
    · have hshape : (a :: foldLast ma rem (b :: rest)).sum - ((a :: b :: rest).sum + rem)
          = (foldLast ma rem (b :: rest)).sum - ((b :: rest).sum + rem) := by
        simp
        ring
      rw [hshape]
      exact g1
    · intro x hx
      simp only [List.mem_cons] at hx
      rcases hx with rfl | hx
      · exact Or.inl (by simp)
      · rcases g2 x (by simpa using hx) with hin | hb
        · exact Or.inl (List.mem_cons_of_mem a hin)
        · exact Or.inr hb

/-- The remainder-folding step (`remaining > 0` guard included) moves the
final sum by at most one cent from `sum + rem`. -/
theorem foldRemainder_spec (ma rem : ℚ) (amts : List ℚ) (hma : 0 < ma)
    (h1 : -1/200 ≤ rem) (h2 : rem ≤ 1/100) :
    |(foldRemainder ma rem amts).sum - (amts.sum + rem)| ≤ 1/100 ∧
      ∀ a ∈ foldRemainder ma rem amts, a ∈ amts ∨ a ≤ ma + 1/100 := by
  rw [foldRemainder]
  by_cases hpos : 0 < rem
  · rw [if_pos hpos]
    match amts with
    | [] =>
      constructor
      · simp only [foldLast, List.sum_nil]
        rw [abs_le]
        constructor <;> linarith
      · intro a ha
        simp [foldLast] at ha
    | x :: xs =>
      obtain ⟨g1, g2⟩ := foldLast_spec ma rem hma h2 (x :: xs) (by simp)
      exact ⟨g1.trans (by norm_num), g2⟩
  · rw [if_neg hpos]
    push_neg at hpos
    constructor
    · have hshape : amts.sum - (amts.sum + rem) = -rem := by ring
      rw [hshape, abs_le]
      constructor <;> linarith
    · exact fun a ha => Or.inl ha

/-- The `difference > 0` branch: exactly `min_sent_count` outflows, received
amounts summing to `total + sum(sent)` up to 0.015, all amounts bounded. -/
theorem posBranch_spec (rng : ℕ → ℚ) (fuel : ℕ) (ma total : ℚ) (mc msc : ℤ) (c : ℕ)
    (hr : URng rng) (hma : 0 < ma) (htot : 0 ≤ total)
    (recA sentA : List ℚ) (c' : ℕ)
    (h : posBranch rng fuel ma total mc msc c = some (recA, sentA, c')) :
    |recA.sum - (total + sentA.sum)| ≤ 3/200 ∧
      sentA.length = msc.toNat ∧
      (∀ a ∈ recA, a ≤ ma + 1/100) ∧
      (∀ a ∈ sentA, a ≤ ma + 1/100) := by
  obtain ⟨s1, s2, s3⟩ := sentDraws_spec rng ma total hr hma htot msc.toNat c
  have hsnn : 0 ≤ (sentDraws rng ma total msc.toNat c).2.1 := by
    rw [s1]
    exact List.sum_nonneg (fun a ha => (s3 a ha).1)
  have hneed : 0 ≤ total + (sentDraws rng ma total msc.toNat c).2.1 := by linarith
  obtain ⟨f1, f2, f3⟩ := fillLoop_spec rng ma hr hma ((max 1 (mc - msc)).toNat) []
    (total + (sentDraws rng ma total msc.toNat c).2.1)
    (sentDraws rng ma total msc.toNat c).2.2 hneed
  simp only [posBranch] at h
  rcases hsp : splitLoop rng ma fuel
      (fillLoop rng ma ((max 1 (mc - msc)).toNat) []
        (total + (sentDraws rng ma total msc.toNat c).2.1)
        (sentDraws rng ma total msc.toNat c).2.2).1
      (fillLoop rng ma ((max 1 (mc - msc)).toNat) []
        (total + (sentDraws rng ma total msc.toNat c).2.1)
        (sentDraws rng ma total msc.toNat c).2.2).2.1
      (fillLoop rng ma ((max 1 (mc - msc)).toNat) []
        (total + (sentDraws rng ma total msc.toNat c).2.1)
        (sentDraws rng ma total msc.toNat c).2.2).2.2 with
    _ | ⟨ra, rem2, c2⟩
  · rw [hsp] at h
    simp at h
  · rw [hsp] at h
    simp only [Option.some.injEq, Prod.mk.injEq] at h
    obtain ⟨hrec, hsent, hc⟩ := h
    obtain ⟨p1, p2, p3, p4⟩ := splitLoop_spec rng ma hr hma fuel _ _ _ ra rem2 c2
      (by linarith) hsp
    obtain ⟨q1, q2⟩ := foldRemainder_spec ma rem2 ra hma p2 p3
    rw [List.sum_nil, zero_add] at f1
    constructor
    · rw [← hrec, ← hsent]
      rw [f1] at p1
      rw [abs_le] at p1 q1 ⊢
      constructor <;> linarith [p1.1, p1.2, q1.1, q1.2]
    refine ⟨?_, ?_, ?_⟩
    · rw [← hsent]
      exact s2
    · intro a ha
      rw [← hrec] at ha
      rcases (q2 a ha) with hin | hb
      · rcases p4 a hin with hin2 | hb2
        · rcases f3 a hin2 with hin3 | hb3
          · exact absurd hin3 (List.not_mem_nil a)
          · exact hb3
        · exact hb2
      · exact hb
    · intro a ha
      rw [← hsent] at ha
      exact (s3 a ha).2

/-- The `difference < 0` branch: no received amounts, sent amounts summing to
`total` up to 0.015, all amounts bounded. -/
theorem negBranch_spec (rng : ℕ → ℚ) (fuel : ℕ) (ma total : ℚ) (mc msc : ℤ) (c : ℕ)
    (hr : URng rng) (hma : 0 < ma) (htot : 0 ≤ total)
    (recA sentA : List ℚ) (c' : ℕ)
    (h : negBranch rng fuel ma total mc msc c = some (recA, sentA, c')) :
    recA = [] ∧
      |sentA.sum - total| ≤ 3/200 ∧
      ∀ a ∈ sentA, a ≤ ma + 1/100 := by
  obtain ⟨f1, f2, f3⟩ := fillLoop_spec rng ma hr hma ((max msc mc).toNat) [] total c htot
  simp only [negBranch] at h
  rcases hsp : splitLoop rng ma fuel
      (fillLoop rng ma ((max msc mc).toNat) [] total c).1
      (fillLoop rng ma ((max msc mc).toNat) [] total c).2.1
      (fillLoop rng ma ((max msc mc).toNat) [] total c).2.2 with
    _ | ⟨sa, rem2, c2⟩
  · rw [hsp] at h
    simp at h
  · rw [hsp] at h
    simp only [Option.some.injEq, Prod.mk.injEq] at h
    obtain ⟨hrec, hsent, hc⟩ := h
    obtain ⟨p1, p2, p3, p4⟩ := splitLoop_spec rng ma hr hma fuel _ _ _ sa rem2 c2
      (by linarith) hsp
    obtain ⟨q1, q2⟩ := foldRemainder_spec ma rem2 sa hma p2 p3
    rw [List.sum_nil, zero_add] at f1
    refine ⟨hrec.symm, ?_, ?_⟩
    · rw [← hsent]
      rw [f1] at p1
      rw [abs_le] at p1 q1 ⊢
      constructor <;> linarith [p1.1, p1.2, q1.1, q1.2]
    · intro a ha
      rw [← hsent] at ha
      rcases q2 a ha with hin | hb
      · rcases p4 a hin with hin2 | hb2
        · rcases f3 a hin2 with hin3 | hb3
          · exact absurd hin3 (List.not_mem_nil a)
          · exact hb3
        · exact hb2
      · exact hb

/-! ### Timestamps, row construction and sorting -/

theorem minuteFloor_le (t : ℕ) : minuteFloor t ≤ t :=
  Nat.div_mul_le_self t 60

theorem minuteFloor_mono {s t : ℕ} (h : s ≤ t) : minuteFloor s ≤ minuteFloor t :=
  Nat.mul_le_mul_right 60 (Nat.div_le_div_right h)

theorem minuteFloor_idem (t : ℕ) : minuteFloor (minuteFloor t) = minuteFloor t := by
  rw [minuteFloor, minuteFloor, Nat.mul_div_cancel (t / 60) (by norm_num)]

theorem mkTime_bounds (irng : ℕ → ℕ → ℕ) (hI : IRng irng) (now earliest : ℕ)
    (he : earliest ≤ now) (k : ℕ) :
    minuteFloor earliest ≤ mkTime irng now earliest k ∧ mkTime irng now earliest k ≤ now := by
  simp only [mkTime]
  by_cases h0 : now - earliest = 0
  · rw [if_pos h0]
    exact ⟨le_trans (minuteFloor_le earliest) he, le_rfl⟩
  · rw [if_neg h0]
    constructor
    · exact minuteFloor_mono (Nat.le_add_right earliest _)
    · have hs : irng k (now - earliest) ≤ now - earliest := hI k _
      have hup : earliest + irng k (now - earliest) ≤ now := by omega
      exact le_trans (minuteFloor_le _) hup

theorem buildTxs_map_amount (irng : ℕ → ℕ → ℕ) (cps dstr : ℕ → String)
    (now earliest : ℕ) (currency ty desc : String) :
    ∀ (amts : List ℚ) (c : ℕ),
      (buildTxs irng cps dstr now earliest currency ty desc amts c).map Transaction.amount
        = amts := by
  intro amts
  induction amts with
  | nil => intro c; rfl
  | cons a rest ih => intro c; simp [buildTxs, ih (c + 1)]

theorem buildTxs_tx_type (irng : ℕ → ℕ → ℕ) (cps dstr : ℕ → String)
    (now earliest : ℕ) (currency ty desc : String) :
    ∀ (amts : List ℚ) (c : ℕ) (tx : Transaction),
      tx ∈ buildTxs irng cps dstr now earliest currency ty desc amts c →
      tx.tx_type = ty := by
  intro amts
  induction amts with
  | nil => intro c tx htx; simp [buildTxs] at htx
  | cons a rest ih =>
    intro c tx htx
    simp only [buildTxs, List.mem_cons] at htx
    rcases htx with rfl | htx
    · rfl
    · exact ih (c + 1) tx htx

theorem buildTxs_created (irng : ℕ → ℕ → ℕ) (cps dstr : ℕ → String)
    (now earliest : ℕ) (currency ty desc : String) (hI : IRng irng) (he : earliest ≤ now) :
    ∀ (amts : List ℚ) (c : ℕ) (tx : Transaction),
      tx ∈ buildTxs irng cps dstr now earliest currency ty desc amts c →
      minuteFloor earliest ≤ tx.created_at ∧ tx.created_at ≤ now := by
  intro amts
  induction amts with
  | nil => intro c tx htx; simp [buildTxs] at htx
  | cons a rest ih =>
    intro c tx htx
    simp only [buildTxs, List.mem_cons] at htx
    rcases htx with rfl | htx
    · exact mkTime_bounds irng hI now earliest he c
    · exact ih (c + 1) tx htx

theorem buildTxs_length (irng : ℕ → ℕ → ℕ) (cps dstr : ℕ → String)
    (now earliest : ℕ) (currency ty desc : String) :
    ∀ (amts : List ℚ) (c : ℕ),
      (buildTxs irng cps dstr now earliest currency ty desc amts c).length = amts.length := by
  intro amts
  induction amts with
  | nil => intro c; rfl
  | cons a rest ih => intro c; simp [buildTxs, ih (c + 1)]

theorem sortByCreated_perm (l : List Transaction) : (sortByCreated l).Perm l :=
  List.mergeSort_perm l _

theorem sortByCreated_sorted (l : List Transaction) :
    (sortByCreated l).Pairwise (fun a b => a.created_at ≤ b.created_at) := by
  rw [sortByCreated]
  refine List.Pairwise.imp ?_ (List.sorted_mergeSort ?_ ?_ l)
  · intro a b hab
    exact of_decide_eq_true hab
  · intro a b c hab hbc
    simp only [decide_eq_true_eq] at hab hbc ⊢
    omega
  · intro a b
    simp only [Bool.or_eq_true, decide_eq_true_eq]
    omega

theorem sumAmountsOfType_append (ty : String) (l1 l2 : List Transaction) :
    sumAmountsOfType ty (l1 ++ l2) = sumAmountsOfType ty l1 + sumAmountsOfType ty l2 := by
  simp [sumAmountsOfType]

theorem sumAmountsOfType_perm (ty : String) {l1 l2 : List Transaction} (h : l1.Perm l2) :
    sumAmountsOfType ty l1 = sumAmountsOfType ty l2 :=
  ((h.filter _).map _).sum_eq

theorem sumAmountsOfType_eq_of_all (ty : String) (l : List Transaction)
    (h : ∀ tx ∈ l, tx.tx_type = ty) :
    sumAmountsOfType ty l = (l.map Transaction.amount).sum := by
  rw [sumAmountsOfType, List.filter_eq_self.mpr]
  intro tx htx
  exact beq_iff_eq.mpr (h tx htx)

theorem sumAmountsOfType_eq_zero (ty : String) (l : List Transaction)
    (h : ∀ tx ∈ l, tx.tx_type ≠ ty) :
    sumAmountsOfType ty l = 0 := by
  rw [sumAmountsOfType, List.filter_eq_nil_iff.mpr]
  · rfl
  · intro tx htx
    simp only [beq_iff_eq]
    exact h tx htx

theorem countOfType_append (ty : String) (l1 l2 : List Transaction) :
    countOfType ty (l1 ++ l2) = countOfType ty l1 + countOfType ty l2 := by
  simp [countOfType, List.countP_append]

theorem countOfType_perm (ty : String) {l1 l2 : List Transaction} (h : l1.Perm l2) :
    countOfType ty l1 = countOfType ty l2 :=
  h.countP_eq _

theorem countOfType_eq_length (ty : String) (l : List Transaction)
    (h : ∀ tx ∈ l, tx.tx_type = ty) :
    countOfType ty l = l.length := by
  rw [countOfType, List.countP_eq_length]
  intro tx htx
  exact beq_iff_eq.mpr (h tx htx)

theorem countOfType_eq_zero (ty : String) (l : List Transaction)
    (h : ∀ tx ∈ l, tx.tx_type ≠ ty) :
    countOfType ty l = 0 := by
  rw [countOfType, List.countP_eq_zero.mpr]
  intro tx htx
  simp only [beq_iff_eq]
  exact h tx htx

/-! ### Dissection of a successful generated batch -/

theorem generateCore_ok (rng : ℕ → ℚ) (irng : ℕ → ℕ → ℕ) (cps dstr : ℕ → String)
    (fuel now : ℕ) (currency : String) (difference : ℚ) (mc : ℤ) (ma : ℚ) (msc : ℤ)
    (earliest : ℕ) (recA sentA : List ℚ) (newTxs : List Transaction)
    (h : generateCore rng irng cps dstr fuel now currency difference mc ma msc earliest
        = .ok (.generated recA sentA newTxs)) :
    ∃ c, (if 0 < difference then posBranch rng fuel ma |difference| mc msc 0
          else negBranch rng fuel ma |difference| mc msc 0) = some (recA, sentA, c) ∧
      newTxs = sortByCreated
        (buildTxs irng cps dstr now earliest currency "received" "Received" recA c ++
          buildTxs irng cps dstr now earliest currency "sent" "Sent" sentA (c + recA.length)) := by
  simp only [generateCore] at h
  rcases hbr : (if 0 < difference then posBranch rng fuel ma |difference| mc msc 0
               else negBranch rng fuel ma |difference| mc msc 0) with _ | ⟨ra, sa, c⟩
  · rw [hbr] at h
    simp at h
  · rw [hbr] at h
    simp only [Except.ok.injEq, GenOk.generated.injEq] at h
    obtain ⟨hra, hsa, hnew⟩ := h
    subst hra
    subst hsa
    exact ⟨c, rfl, hnew.symm⟩

theorem generate_ok_dissect (rng : ℕ → ℚ) (irng : ℕ → ℕ → ℕ) (cps dstr : ℕ → String)
    (fuel now : ℕ) (account : Account) (txs : List Transaction)
    (mc : ℤ) (ma : ℚ) (msc : ℤ) (st : Option ℕ)
    (recA sentA : List ℚ) (newTxs : List Transaction)
    (h : generate_transactions rng irng cps dstr fuel now (some account) txs mc ma msc st
        = .ok (.generated recA sentA newTxs)) :
    ∃ earliest, earliest ≤ now ∧
      minuteFloor earliest = startLowerBound now st ∧
      1 ≤ mc ∧ 0 < ma ∧ 0 ≤ msc ∧ msc ≤ mc ∧
      1/100 ≤ |account.balance - actualBalance txs| ∧
      generateCore rng irng cps dstr fuel now account.currency
          (account.balance - actualBalance txs) mc ma msc earliest
        = .ok (.generated recA sentA newTxs) := by
  simp only [generate_transactions] at h
  by_cases h0 : |account.balance - actualBalance txs| < 1/100
  · rw [if_pos h0] at h
    simp at h
  rw [if_neg h0] at h
  by_cases h1 : mc < 1
  · rw [if_pos h1] at h
    simp at h
  rw [if_neg h1] at h
  by_cases h2 : ma ≤ 0
  · rw [if_pos h2] at h
    simp at h
  rw [if_neg h2] at h
  by_cases h3 : msc < 0
  · rw [if_pos h3] at h
    simp at h
  rw [if_neg h3] at h
  by_cases h4 : mc < msc
  · rw [if_pos h4] at h
    simp at h
  rw [if_neg h4] at h
  split at h
  next t =>
    by_cases h5 : now < minuteFloor t
    · rw [if_pos h5] at h
      simp at h
    · rw [if_neg h5] at h
      exact ⟨minuteFloor t, le_of_not_lt h5, rfl, by omega,
        lt_of_not_le h2, by omega, by omega, le_of_not_lt h0, h⟩
  next =>
    exact ⟨now - 30 * 86400, Nat.sub_le _ _, rfl, by omega,
      lt_of_not_le h2, by omega, by omega, le_of_not_lt h0, h⟩

/-! ### Main generator claims -/

/-- C1: for every successful generated batch, the sum of generated "received"
amounts minus the sum of generated "sent" amounts, added to the pre-existing
net balance, equals the account's balance target within 0.02. -/
theorem generated_batch_balances
    (rng : ℕ → ℚ) (irng : ℕ → ℕ → ℕ) (cps dstr : ℕ → String) (fuel now : ℕ)
    (account : Account) (txs : List Transaction) (mc : ℤ) (ma : ℚ) (msc : ℤ)
    (st : Option ℕ) (recA sentA : List ℚ) (newTxs : List Transaction)
    (hr : URng rng)
    (h : generate_transactions rng irng cps dstr fuel now (some account) txs mc ma msc st
        = .ok (.generated recA sentA newTxs)) :
    |actualBalance txs
        + (sumAmountsOfType "received" newTxs - sumAmountsOfType "sent" newTxs)
        - account.balance| ≤ 1/50 := by
  obtain ⟨earliest, hen, hsl, hmc, hma, hmsc0, hmscmc, hdiff, hcore⟩ :=
    generate_ok_dissect rng irng cps dstr fuel now account txs mc ma msc st recA sentA newTxs h
  obtain ⟨c, hbr, hsort⟩ := generateCore_ok rng irng cps dstr fuel now account.currency
    (account.balance - actualBalance txs) mc ma msc earliest recA sentA newTxs hcore
  have hrecsum : sumAmountsOfType "received" newTxs = recA.sum := by
    rw [hsort, sumAmountsOfType_perm "received" (sortByCreated_perm _),
      sumAmountsOfType_append,
      sumAmountsOfType_eq_of_all "received" _
        (buildTxs_tx_type irng cps dstr now earliest account.currency "received" "Received"
          recA c),
      buildTxs_map_amount,
      sumAmountsOfType_eq_zero "received" _
        (fun tx htx => by
          rw [buildTxs_tx_type irng cps dstr now earliest account.currency "sent" "Sent"
            sentA (c + recA.length) tx htx]
          decide),
      add_zero]
  have hsentsum : sumAmountsOfType "sent" newTxs = sentA.sum := by
    rw [hsort, sumAmountsOfType_perm "sent" (sortByCreated_perm _),
      sumAmountsOfType_append,
      sumAmountsOfType_eq_zero "sent" _
        (fun tx htx => by
          rw [buildTxs_tx_type irng cps dstr now earliest account.currency "received"
            "Received" recA c tx htx]
          decide),
      sumAmountsOfType_eq_of_all "sent" _
        (buildTxs_tx_type irng cps dstr now earliest account.currency "sent" "Sent"
          sentA (c + recA.length)),
      buildTxs_map_amount,
      zero_add]
  by_cases hpos : 0 < account.balance - actualBalance txs
  · rw [if_pos hpos] at hbr
    obtain ⟨p1, _, _, _⟩ := posBranch_spec rng fuel ma _ mc msc 0 hr hma (abs_nonneg _)
      recA sentA c hbr
    rw [abs_of_pos hpos] at p1
    rw [hrecsum, hsentsum]
    rw [abs_le] at p1 ⊢
    constructor <;> linarith [p1.1, p1.2]
  · rw [if_neg hpos] at hbr
    obtain ⟨hrec0, p1, _⟩ := negBranch_spec rng fuel ma _ mc msc 0 hr hma (abs_nonneg _)
      recA sentA c hbr
    have hd0 : account.balance - actualBalance txs ≤ 0 := le_of_not_lt hpos
    have hneg : account.balance - actualBalance txs < 0 := by
      rcases lt_or_eq_of_le hd0 with hl | he
      · exact hl
      · rw [he, abs_zero] at hdiff
        exact absurd hdiff (by norm_num)
    rw [abs_of_neg hneg] at p1
    rw [hrecsum, hsentsum, hrec0, List.sum_nil]
    rw [abs_le] at p1 ⊢
    constructor <;> linarith [p1.1, p1.2]

/-- C4 (amended): when the difference is positive, the generated batch
contains exactly `min_sent_count` "sent" rows, hence at least that many;
when the difference is negative all rows are "sent" but, if the needed
outflow is too small to split, fewer than `min_sent_count` rows can result. -/
theorem min_sent_rows_when_difference_positive
    (rng : ℕ → ℚ) (irng : ℕ → ℕ → ℕ) (cps dstr : ℕ → String) (fuel now : ℕ)
    (account : Account) (txs : List Transaction) (mc : ℤ) (ma : ℚ) (msc : ℤ)
    (st : Option ℕ) (recA sentA : List ℚ) (newTxs : List Transaction)
    (hr : URng rng)
    (hpos : 0 < account.balance - actualBalance txs)
    (h : generate_transactions rng irng cps dstr fuel now (some account) txs mc ma msc st
        = .ok (.generated recA sentA newTxs)) :
    countOfType "sent" newTxs = msc.toNat ∧ msc ≤ (countOfType "sent" newTxs : ℤ) := by
  obtain ⟨earliest, hen, hsl, hmc, hma, hmsc0, hmscmc, hdiff, hcore⟩ :=
    generate_ok_dissect rng irng cps dstr fuel now account txs mc ma msc st recA sentA newTxs h
  obtain ⟨c, hbr, hsort⟩ := generateCore_ok rng irng cps dstr fuel now account.currency
    (account.balance - actualBalance txs) mc ma msc earliest recA sentA newTxs hcore
  rw [if_pos hpos] at hbr
  obtain ⟨_, p2, _, _⟩ := posBranch_spec rng fuel ma _ mc msc 0 hr hma (abs_nonneg _)
    recA sentA c hbr
  have hcount : countOfType "sent" newTxs = sentA.length := by
    rw [hsort, countOfType_perm "sent" (sortByCreated_perm _), countOfType_append,
      countOfType_eq_zero "sent" _
        (fun tx htx => by
          rw [buildTxs_tx_type irng cps dstr now earliest account.currency "received"
            "Received" recA c tx htx]
          decide),
      countOfType_eq_length "sent" _
        (buildTxs_tx_type irng cps dstr now earliest account.currency "sent" "Sent"
          sentA (c + recA.length)),
      buildTxs_length, zero_add]
  rw [hcount, p2]
  exact ⟨rfl, Int.self_le_toNat msc⟩

/-- C5: every generated row's amount is at most `max_amount + 0.01`, across
the greedy fill, the extra splitting and the remainder folding. -/
theorem generated_amounts_bounded
    (rng : ℕ → ℚ) (irng : ℕ → ℕ → ℕ) (cps dstr : ℕ → String) (fuel now : ℕ)
    (account : Account) (txs : List Transaction) (mc : ℤ) (ma : ℚ) (msc : ℤ)
    (st : Option ℕ) (recA sentA : List ℚ) (newTxs : List Transaction)
    (hr : URng rng)
    (h : generate_transactions rng irng cps dstr fuel now (some account) txs mc ma msc st
        = .ok (.generated recA sentA newTxs)) :
    ∀ tx ∈ newTxs, tx.amount ≤ ma + 1/100 := by
  obtain ⟨earliest, hen, hsl, hmc, hma, hmsc0, hmscmc, hdiff, hcore⟩ :=
    generate_ok_dissect rng irng cps dstr fuel now account txs mc ma msc st recA sentA newTxs h
  obtain ⟨c, hbr, hsort⟩ := generateCore_ok rng irng cps dstr fuel now account.currency
    (account.balance - actualBalance txs) mc ma msc earliest recA sentA newTxs hcore
  intro tx htx
  rw [hsort] at htx
  have hmem := ((sortByCreated_perm _).mem_iff).mp htx
  rcases List.mem_append.mp hmem with hR | hS
  · have hamem : tx.amount ∈ recA := by
      have hmap := List.mem_map_of_mem Transaction.amount hR
      rwa [buildTxs_map_amount] at hmap
    by_cases hpos : 0 < account.balance - actualBalance txs
    · rw [if_pos hpos] at hbr
      obtain ⟨_, _, p3, _⟩ := posBranch_spec rng fuel ma _ mc msc 0 hr hma (abs_nonneg _)
        recA sentA c hbr
      exact p3 _ hamem
    · rw [if_neg hpos] at hbr
      obtain ⟨hrec0, _, _⟩ := negBranch_spec rng fuel ma _ mc msc 0 hr hma (abs_nonneg _)
        recA sentA c hbr
      rw [hrec0] at hamem
      exact absurd hamem (List.not_mem_nil _)
  · have hamem : tx.amount ∈ sentA := by
      have hmap := List.mem_map_of_mem Transaction.amount hS
      rwa [buildTxs_map_amount] at hmap
    by_cases hpos : 0 < account.balance - actualBalance txs
    · rw [if_pos hpos] at hbr
      obtain ⟨_, _, _, p4⟩ := posBranch_spec rng fuel ma _ mc msc 0 hr hma (abs_nonneg _)
        recA sentA c hbr
      exact p4 _ hamem
    · rw [if_neg hpos] at hbr
      obtain ⟨_, _, p3⟩ := negBranch_spec rng fuel ma _ mc msc 0 hr hma (abs_nonneg _)
        recA sentA c hbr
      exact p3 _ hamem

/-- C6 (amended): generated timestamps lie within `[minuteFloor start, now]`
(the minute floor of the effective earliest time — for an explicit minute-
precision `start_time` that is the start time itself, for the default
`now - 30 days` the enclosing minute boundary, which can precede the raw
default by up to 59 seconds), and the batch is sorted ascending by
`created_at`. -/
theorem generated_timestamps_in_range_and_sorted
    (rng : ℕ → ℚ) (irng : ℕ → ℕ → ℕ) (cps dstr : ℕ → String) (fuel now : ℕ)
    (account : Account) (txs : List Transaction) (mc : ℤ) (ma : ℚ) (msc : ℤ)
    (st : Option ℕ) (recA sentA : List ℚ) (newTxs : List Transaction)
    (hI : IRng irng)
    (h : generate_transactions rng irng cps dstr fuel now (some account) txs mc ma msc st
        = .ok (.generated recA sentA newTxs)) :
    newTxs.Pairwise (fun a b => a.created_at ≤ b.created_at) ∧
      ∀ tx ∈ newTxs, startLowerBound now st ≤ tx.created_at ∧ tx.created_at ≤ now := by
  obtain ⟨earliest, hen, hsl, hmc, hma, hmsc0, hmscmc, hdiff, hcore⟩ :=
    generate_ok_dissect rng irng cps dstr fuel now account txs mc ma msc st recA sentA newTxs h
  obtain ⟨c, hbr, hsort⟩ := generateCore_ok rng irng cps dstr fuel now account.currency
    (account.balance - actualBalance txs) mc ma msc earliest recA sentA newTxs hcore
  constructor
  · rw [hsort]
    exact sortByCreated_sorted _
  · intro tx htx
    rw [hsort] at htx
    have hmem := ((sortByCreated_perm _).mem_iff).mp htx
    rw [← hsl]
    rcases List.mem_append.mp hmem with hR | hS
    · exact buildTxs_created irng cps dstr now earliest account.currency "received"
        "Received" hI hen recA c tx hR
    · exact buildTxs_created irng cps dstr now earliest account.currency "sent"
        "Sent" hI hen sentA (c + recA.length) tx hS

/-- C8 (amended): the generator only produces rows with `tx_type` "received"
or "sent" (a subset of the data model's three values); the create and update
endpoints perform no validation or normalization of `tx_type`. -/
theorem generated_tx_types_valid
    (rng : ℕ → ℚ) (irng : ℕ → ℕ → ℕ) (cps dstr : ℕ → String) (fuel now : ℕ)
    (account : Account) (txs : List Transaction) (mc : ℤ) (ma : ℚ) (msc : ℤ)
    (st : Option ℕ) (recA sentA : List ℚ) (newTxs : List Transaction)
    (h : generate_transactions rng irng cps dstr fuel now (some account) txs mc ma msc st
        = .ok (.generated recA sentA newTxs)) :
    ∀ tx ∈ newTxs, tx.tx_type = "received" ∨ tx.tx_type = "sent" := by
  obtain ⟨earliest, hen, hsl, hmc, hma, hmsc0, hmscmc, hdiff, hcore⟩ :=
    generate_ok_dissect rng irng cps dstr fuel now account txs mc ma msc st recA sentA newTxs h
  obtain ⟨c, hbr, hsort⟩ := generateCore_ok rng irng cps dstr fuel now account.currency
    (account.balance - actualBalance txs) mc ma msc earliest recA sentA newTxs hcore
  intro tx htx
  rw [hsort] at htx
  have hmem := ((sortByCreated_perm _).mem_iff).mp htx
  rcases List.mem_append.mp hmem with hR | hS
  · exact Or.inl (buildTxs_tx_type irng cps dstr now earliest account.currency "received"
      "Received" recA c tx hR)
  · exact Or.inr (buildTxs_tx_type irng cps dstr now earliest account.currency "sent"
      "Sent" sentA (c + recA.length) tx hS)

/-! ### Concrete runs used by witnesses and counterexamples -/

/-- Oracle whose `random()` always returns 1 (the top of each range). -/
def rngOne : ℕ → ℚ := fun _ => 1

/-- Oracle whose `randint(0, n)` always returns 0. -/
def irngZero : ℕ → ℕ → ℕ := fun _ _ => 0

/-- Oracle producing empty counterparty and date strings. -/
def strEmpty : ℕ → String := fun _ => ""

theorem rngOne_bounds : URng rngOne := fun _ => ⟨by norm_num [rngOne], by norm_num [rngOne]⟩

theorem irngZero_bounds : IRng irngZero := fun _ _ => Nat.zero_le _

/-- Account with target balance 0.50 (run A). -/
def acctA : Account := { seedAccount with balance := 1/2 }

/-- Run A, first generated row. -/
def runATx1 : Transaction :=
  { id := none, tx_type := "received", amount := 13/20, currency := "USD",
    counterparty := "", date := "", description := "Received", created_at := 0 }

/-- Run A, second generated row. -/
def runATx2 : Transaction :=
  { id := none, tx_type := "sent", amount := 3/20, currency := "USD",
    counterparty := "", date := "", description := "Sent", created_at := 0 }

/-- Run A evaluated: target 0.50 over an empty ledger, `min_count = 2`,
`max_amount = 100`, `min_sent_count = 1`, default start time, at
`now = 2592045` (30 days plus 45 seconds into the epoch).  The positive
branch draws one sent amount 0.15 and one received amount 0.65; both rows get
the minute-floored timestamp 0 — 45 seconds before the raw default start
`now - 30 days = 45`. -/
theorem runA_sentDraws : sentDraws rngOne 100 (1/2) 1 0 = ([3/20], 3/20, 1) := by
  norm_num [sentDraws, rngOne, uniform, round2, round_eq, min_def]

theorem runA_fillLoop : fillLoop rngOne 100 1 [] (13/20) 1 = ([13/20], 0, 2) := by
  norm_num [fillLoop, fillStepAmount, fillDraw, fillMaxThis, rngOne, uniform, round2,
    round_eq, min_def, max_def]

theorem runA_splitLoop : splitLoop rngOne 100 10 [13/20] 0 2 = some ([13/20], 0, 2) := by
  norm_num [splitLoop]

theorem runA_posBranch : posBranch rngOne 10 100 (1/2) 2 1 0 = some ([13/20], [3/20], 2) := by
  simp only [posBranch]
  norm_num [runA_sentDraws, runA_fillLoop, runA_splitLoop, foldRemainder, foldLast]

theorem runA_buildRec :
    buildTxs irngZero strEmpty strEmpty 2592045 45 "USD" "received" "Received" [13/20] 2
      = [runATx1] := by
  norm_num [buildTxs, mkTime, minuteFloor, irngZero, strEmpty, runATx1]

theorem runA_buildSent :
    buildTxs irngZero strEmpty strEmpty 2592045 45 "USD" "sent" "Sent" [3/20] 3
      = [runATx2] := by
  norm_num [buildTxs, mkTime, minuteFloor, irngZero, strEmpty, runATx2]

theorem runA_sort : sortByCreated [runATx1, runATx2] = [runATx1, runATx2] := by
  simp [sortByCreated, List.mergeSort, runATx1, runATx2]

theorem runA_core :
    generateCore rngOne irngZero strEmpty strEmpty 10 2592045 "USD" (1/2) 2 100 1 45
      = .ok (.generated [13/20] [3/20] [runATx1, runATx2]) := by
  simp only [generateCore]
  rw [show |(1/2 : ℚ)| = 1/2 from by norm_num,
    if_pos (by norm_num : (0:ℚ) < 1/2), runA_posBranch]
  simp only [runA_buildRec, List.length_singleton]
  norm_num [runA_buildSent, runA_sort]

/-- Run A evaluated: target 0.50 over an empty ledger, `min_count = 2`,
`max_amount = 100`, `min_sent_count = 1`, default start time, at
`now = 2592045` (30 days plus 45 seconds into the epoch).  The positive
branch draws one sent amount 0.15 and one received amount 0.65; both rows get
the minute-floored timestamp 0 — 45 seconds before the raw default start
`now - 30 days = 45`. -/
theorem runA_eval :
    generate_transactions rngOne irngZero strEmpty strEmpty 10 2592045 (some acctA) []
        2 100 1 none
      = .ok (.generated [13/20] [3/20] [runATx1, runATx2]) := by
  simp only [generate_transactions]
  rw [show acctA.balance - actualBalance [] = 1/2 from by
      norm_num [acctA, seedAccount, actualBalance]]
  rw [if_neg (by rw [show |(1/2 : ℚ)| = 1/2 from by norm_num]; norm_num),
    if_neg (by norm_num), if_neg (by norm_num),
    if_neg (by norm_num), if_neg (by norm_num)]
  rw [show acctA.currency = "USD" from rfl]
  rw [show (2592045 : ℕ) - 30 * 86400 = 45 from by norm_num]
  exact runA_core

/-- Account with target balance 0 (run B). -/
def acctB : Account := { seedAccount with balance := 0 }

/-- Existing ledger for run B: one received row of 0.02. -/
def txsB : List Transaction :=
  [{ id := some 1, tx_type := "received", amount := 1/50, currency := "USD",
     counterparty := "", date := "", description := "", created_at := 0 }]

/-- Run B, the single generated row. -/
def runBTx : Transaction :=
  { id := none, tx_type := "sent", amount := 1/50, currency := "USD",
    counterparty := "", date := "", description := "Sent", created_at := 0 }

theorem runB_fillLoop : fillLoop rngOne 100 3 [] (1/50) 0 = ([1/50], 0, 1) := by
  norm_num [fillLoop, fillStepAmount, fillDraw, fillMaxThis, rngOne, uniform, round2,
    round_eq, min_def, max_def]

theorem runB_splitLoop : splitLoop rngOne 100 10 [1/50] 0 1 = some ([1/50], 0, 1) := by
  norm_num [splitLoop]

theorem runB_negBranch : negBranch rngOne 10 100 (1/50) 3 3 0 = some ([], [1/50], 1) := by
  simp only [negBranch]
  rw [show (max (3:ℤ) 3).toNat = 3 from by simp, runB_fillLoop]
  norm_num [runB_splitLoop, foldRemainder, foldLast]

theorem runB_buildSent :
    buildTxs irngZero strEmpty strEmpty 2592000 0 "USD" "sent" "Sent" [1/50] 1
      = [runBTx] := by
  simp [buildTxs, mkTime, minuteFloor, irngZero, strEmpty, runBTx]

theorem runB_core :
    generateCore rngOne irngZero strEmpty strEmpty 10 2592000 "USD" (-(1/50)) 3 100 3 0
      = .ok (.generated [] [1/50] [runBTx]) := by
  simp only [generateCore]
  rw [show |(-(1/50) : ℚ)| = 1/50 from by norm_num,
    if_neg (by norm_num : ¬ (0:ℚ) < -(1/50)), runB_negBranch]
  simp only [buildTxs, List.length_nil, Nat.add_zero, List.nil_append]
  simp [mkTime, minuteFloor, irngZero, strEmpty, runBTx, sortByCreated, List.mergeSort]

/-- Run B evaluated: target 0 against a single received row of 0.02
(difference -0.02), `min_count = 3`, `min_sent_count = 3`: the outflow 0.02 is
consumed by the first draw, so only one "sent" row is generated although
three were requested. -/
theorem runB_eval :
    generate_transactions rngOne irngZero strEmpty strEmpty 10 2592000 (some acctB) txsB
        3 100 3 none
      = .ok (.generated [] [1/50] [runBTx]) := by
  simp only [generate_transactions]
  rw [show acctB.balance - actualBalance txsB = -(1/50) from by
      norm_num [acctB, seedAccount, actualBalance, txsB]]
  rw [if_neg (by rw [show |(-(1/50) : ℚ)| = 1/50 from by norm_num]; norm_num),
    if_neg (by norm_num), if_neg (by norm_num),
    if_neg (by norm_num), if_neg (by norm_num)]
  rw [show acctB.currency = "USD" from rfl]
  rw [show (2592000 : ℕ) - 30 * 86400 = 0 from by norm_num]
  exact runB_core

/-! ### Counterexamples and witnesses for the generator claims -/

/-- C4 counterexample: with difference -0.02 and `min_sent_count = 3` the
generator produces one row in total — a single "sent" row — so fewer than
`min_sent_count` sent rows are generated. -/
theorem too_small_outflow_undershoots_min_sent_count :
    genRowTypes (generate_transactions rngOne irngZero strEmpty strEmpty 10 2592000
        (some acctB) txsB 3 100 3 none) = some ["sent"] ∧ (1 : ℕ) < 3 := by
  rw [runB_eval]
  exact ⟨by simp [genRowTypes, runBTx], by norm_num⟩

/-- C6 counterexample: with the default start time `now - 30 days` at
`now = 2592045` (45 seconds past a minute boundary), both generated rows get
`created_at = 0`, which is 45 seconds before the start of the window. -/
theorem default_start_window_violated :
    genRowTimes (generate_transactions rngOne irngZero strEmpty strEmpty 10 2592045
        (some acctA) [] 2 100 1 none) = some [0, 0] ∧
      (0 : ℕ) < 2592045 - 30 * 86400 := by
  rw [runA_eval]
  exact ⟨by simp [genRowTimes, runATx1, runATx2], by norm_num⟩

/-- Witness for C1: run A's rows sum to 0.65 - 0.15 = 0.50, the target. -/
theorem generated_batch_balances_witness :
    |actualBalance []
        + (sumAmountsOfType "received" [runATx1, runATx2]
            - sumAmountsOfType "sent" [runATx1, runATx2])
        - acctA.balance| ≤ 1/50 :=
  generated_batch_balances rngOne irngZero strEmpty strEmpty 10 2592045 acctA [] 2 100 1
    none [13/20] [3/20] [runATx1, runATx2] rngOne_bounds runA_eval

/-- Witness for C4 (amended): run A has positive difference and produces
exactly `min_sent_count = 1` sent row. -/
theorem min_sent_rows_when_difference_positive_witness :
    countOfType "sent" [runATx1, runATx2] = (1 : ℤ).toNat ∧
      (1 : ℤ) ≤ (countOfType "sent" [runATx1, runATx2] : ℤ) :=
  min_sent_rows_when_difference_positive rngOne irngZero strEmpty strEmpty 10 2592045
    acctA [] 2 100 1 none [13/20] [3/20] [runATx1, runATx2] rngOne_bounds
    (by norm_num [acctA, seedAccount, actualBalance]) runA_eval

/-- Witness for C5: run A's first row respects the amount bound. -/
theorem generated_amounts_bounded_witness :
    runATx1.amount ≤ 100 + 1/100 :=
  generated_amounts_bounded rngOne irngZero strEmpty strEmpty 10 2592045 acctA [] 2 100 1
    none [13/20] [3/20] [runATx1, runATx2] rngOne_bounds runA_eval runATx1
    (List.mem_cons_self _ _)

/-- Witness for C6 (amended): run A's batch is sorted and its first row lies
within `[minuteFloor (now - 30 days), now]`. -/
theorem generated_timestamps_in_range_and_sorted_witness :
    ([runATx1, runATx2] : List Transaction).Pairwise
        (fun a b => a.created_at ≤ b.created_at) ∧
      (startLowerBound 2592045 none ≤ runATx1.created_at ∧
        runATx1.created_at ≤ 2592045) :=
  ⟨(generated_timestamps_in_range_and_sorted rngOne irngZero strEmpty strEmpty 10 2592045
      acctA [] 2 100 1 none [13/20] [3/20] [runATx1, runATx2] irngZero_bounds runA_eval).1,
   (generated_timestamps_in_range_and_sorted rngOne irngZero strEmpty strEmpty 10 2592045
      acctA [] 2 100 1 none [13/20] [3/20] [runATx1, runATx2] irngZero_bounds runA_eval).2
     runATx1 (List.mem_cons_self _ _)⟩

/-- Witness for C8 (amended): run A's first row has a valid type. -/
theorem generated_tx_types_valid_witness :
    runATx1.tx_type = "received" ∨ runATx1.tx_type = "sent" :=
  generated_tx_types_valid rngOne irngZero strEmpty strEmpty 10 2592045 acctA [] 2 100 1
    none [13/20] [3/20] [runATx1, runATx2] runA_eval runATx1 (List.mem_cons_self _ _)

/-- C8 counterexample: the create endpoint persists a transaction whose
`tx_type` is "refund" — outside {sent, received, fee} — with no rejection or
normalization. -/
theorem create_accepts_any_tx_type :
    (create_transaction 0 []
        { tx_type := "refund", amount := 1, currency := "USD", counterparty := "",
          date := "", description := "" }).map Transaction.tx_type = ["refund"] ∧
      ("refund" ≠ "sent" ∧ "refund" ≠ "received" ∧ "refund" ≠ "fee") :=
  ⟨by simp [create_transaction], by decide⟩

end KastBank
